import Mathlib

set_option autoImplicit false

/-!
Shallow embedding of wx-server-graphql: a GraphQL adapter with two transport
variants, a cloud-function handler (`graphqlWXServer`) and an HTTP middleware
(`graphqlHTTP` / `graphqlMiddleware`).  External collaborators (the graphql-js
engine, `JSON.parse`, body parsing, content negotiation, GraphiQL rendering)
are modelled as oracle parameters bundled in `Externals`; the module's own
statements are translated one by one from src/demo.js.
-/

/-- A JavaScript runtime value, as far as the adapter inspects one. -/
inductive JSValue : Type where
  | undefined : JSValue
  | null : JSValue
  | bool : Bool → JSValue
  | num : Int → JSValue
  | str : String → JSValue
  | arr : List JSValue → JSValue
  | obj : List (String × JSValue) → JSValue

/-- The JavaScript `typeof` operator restricted to the values above
(`typeof null` is "object", as in JavaScript). -/
def JSValue.typeof : JSValue → String
  | .undefined => "undefined"
  | .null => "object"
  | .bool _ => "boolean"
  | .num _ => "number"
  | .str _ => "string"
  | .arr _ => "object"
  | .obj _ => "object"

/-- JavaScript loose equality with null (`x == null`): true exactly for
`null` and `undefined`. -/
def JSValue.looseNull : JSValue → Bool
  | .undefined => true
  | .null => true
  | _ => false

/-- JavaScript truthiness of a value. -/
def JSValue.truthy : JSValue → Bool
  | .undefined => false
  | .null => false
  | .bool b => b
  | .num n => decide (n ≠ 0)
  | .str s => decide (s ≠ "")
  | .arr _ => true
  | .obj _ => true

/-- The object built by `httpError` (src/demo.js:196-198): a plain record
`{statusCode, message, ...errDtails}`.  The spread details can add a
`graphqlErrors` list and a `headers` map and nothing else in this module.
The field `status` is carried because `graphqlMiddleware` reads
`error.status` (src/demo.js:555); `httpError` itself never sets it. -/
structure TaggedFailure (ε : Type) : Type where
  statusCode : Nat
  status : Option Nat
  message : String
  graphqlErrors : Option (List ε)
  headers : Option (List (String × String))
deriving DecidableEq

/-- Translation of `httpError(statusCode, message, errDtails = {})`
(src/demo.js:196-198).  The two optional arguments stand for the fields the
callers put in `errDtails`; `status` is absent (`none`) on every object this
constructor produces. -/
def httpError {ε : Type} (statusCode : Nat) (message : String)
    (graphqlErrors : Option (List ε)) (headers : Option (List (String × String))) :
    TaggedFailure ε :=
  { statusCode := statusCode, status := none, message := message,
    graphqlErrors := graphqlErrors, headers := headers }

/-- An element of an `errors` array in a response envelope: either a
GraphQL-level error produced by the engine, or the `httpError` object itself
(`errors: error.graphqlErrors ?? [error]`). -/
inductive ErrVal (ε : Type) : Type where
  | gqlErr : ε → ErrVal ε
  | failure : TaggedFailure ε → ErrVal ε
deriving DecidableEq

/-- The `GraphQLParams` interface shared by both variants.  The cloud variant
stores the raw `param.raw` value in `raw` (src/demo.js:344); the HTTP variant
stores a boolean (src/demo.js:690).  `variableValues` renders the source field
`variables` (a reserved word in Lean): it is whatever `JSON.parse` returned,
or the body value kept as an object, or null. -/
structure GraphQLParams : Type where
  query : Option String
  variableValues : JSValue
  operationName : Option String
  raw : JSValue

/-- Coercion used for `query` and `operationName` in both extractors:
`if (typeof x !== 'string') x = null` (src/demo.js:322-324, 340-342,
665-667, 686-688). -/
def stringOrNull : JSValue → Option String
  | .str s => some s
  | _ => none

/-- The event object handed to the cloud-function extractor
(`getGraphQLParams(param)`, src/demo.js:316-347): the four fields it reads,
each an arbitrary JavaScript value (`undefined` when absent). -/
structure WxParams : Type where
  query : JSValue
  variableValues : JSValue
  operationName : JSValue
  raw : JSValue

/-- A graphql-js `Source`, built as `new Source(query, 'GraphQL request')`
(src/demo.js:258, 477). -/
structure Source : Type where
  body : String
  name : String
deriving DecidableEq

/-- The part of a graphql-js operation definition node the middleware reads:
`operationAST.operation` (src/demo.js:502, 513). -/
structure OperationAST : Type where
  operation : String
deriving DecidableEq

/-- One step of either pipeline, recorded in an execution trace so that the
order and short-circuiting of the source's state machine can be stated. -/
inductive Step : Type where
  | getParams : Step
  | resolveOptions : Step
  | schemaCheck : Step
  | methodCheck : Step
  | queryCheck : Step
  | validateSchemaStep : Step
  | parseStep : Step
  | validateDoc : Step
  | operationCheck : Step
  | execute : Step
  | extensionsStep : Step
deriving DecidableEq

/-- The argument object passed to `executeFn` (src/demo.js:281-290, 521-530).
`υ` is the type of opaque caller-supplied values (root value, context value,
field/type resolvers, extension payloads, GraphiQL option bags). -/
structure ExecutionArgs (σ δ υ : Type) : Type where
  schema : σ
  document : δ
  rootValue : Option υ
  contextValue : Option υ
  variableValues : JSValue
  operationName : Option String
  fieldResolver : Option υ
  typeResolver : Option υ

/-- What the executor returns: `{data, errors, extensions}` with `errors`
a list of engine-level errors (`ε`) or absent. -/
structure ExecutionResult (ε υ : Type) : Type where
  data : JSValue
  errors : Option (List ε)
  extensions : Option υ

/-- The result envelope held in the middleware's `result` variable after the
pipeline boundary: on the success path it is the executor's result, on the
failure path `{data: undefined, errors: error.graphqlErrors ?? [error]}`, so
its error elements mix engine errors and the failure object. -/
structure ResultEnvelope (ε υ : Type) : Type where
  data : JSValue
  errors : Option (List (ErrVal ε))
  extensions : Option υ

/-- The envelope after `errors` was mapped through the formatting function
(`formattedResult`, src/demo.js:577-580); `φ` is the formatted-error type. -/
structure FormattedEnvelope (φ υ : Type) : Type where
  data : JSValue
  errors : Option (List φ)
  extensions : Option υ

/-- The `RequestInfo` object handed to a caller-supplied `extensions`
function (src/demo.js:541-547). -/
structure RequestInfo (δ ε υ : Type) : Type where
  document : δ
  variableValues : JSValue
  operationName : Option String
  result : ExecutionResult ε υ
  context : υ

/-- The external collaborators the module calls but does not implement:
graphql-js (`validateSchema`, `parse`, `validate`, `execute`,
`getOperationAST`, `specifiedRules`, `formatError`) and `JSON.parse`.
They are oracle parameters: the theorems hold for every behaviour of these
functions. -/
structure Externals (σ δ ε ρ υ φ : Type) : Type where
  jsonParse : String → Option JSValue
  validateSchema : σ → List ε
  parse : Source → Except ε δ
  validate : σ → δ → List ρ → List ε
  execute : ExecutionArgs σ δ υ → Except ε (ExecutionResult ε υ)
  getOperationAST : δ → Option String → Option OperationAST
  specifiedRules : List ρ
  formatError : ErrVal ε → φ

/-- The `graphiql` option as the HTTP variant reads it off the options bag:
absent (`undefined`), a boolean, or a GraphiQL options object. -/
inductive GraphiqlRaw (υ : Type) : Type where
  | undef : GraphiqlRaw υ
  | bool : Bool → GraphiqlRaw υ
  | opts : υ → GraphiqlRaw υ

/-- The `OptionsData` configuration bag (src/demo.js:100-194).  `graphiql`
is not declared in the source interface but is read by the HTTP middleware
(src/demo.js:421).  The HTTP variant ignores `wxParams`. -/
structure OptionsData (σ δ ε ρ υ φ : Type) : Type where
  wxParams : WxParams
  schema : Option σ
  context : Option υ
  rootValue : Option υ
  pretty : Option Bool
  validationRules : Option (List ρ)
  customValidateFn : Option (σ → δ → List ρ → List ε)
  customExecuteFn : Option (ExecutionArgs σ δ υ → Except ε (ExecutionResult ε υ))
  customFormatErrorFn : Option (ErrVal ε → φ)
  customParseFn : Option (Source → Except ε δ)
  formatError : Option (ErrVal ε → φ)
  extensions : Option (RequestInfo δ ε υ → Option υ)
  fieldResolver : Option υ
  typeResolver : Option υ
  graphiql : GraphiqlRaw υ

/-- The catch-block envelope shared by both variants
(`result = { data: undefined, errors: error.graphqlErrors || [error] }`,
src/demo.js:299, and `... ?? [error]`, src/demo.js:564; on an `httpError`
object the two operators agree because `graphqlErrors`, when set, is an
array, and arrays are truthy). -/
def failureEnvelope {ε υ : Type} (error : TaggedFailure ε) : ResultEnvelope ε υ :=
  { data := JSValue.undefined,
    errors := some (match error.graphqlErrors with
      | some l => l.map ErrVal.gqlErr
      | none => [ErrVal.failure error]),
    extensions := none }

namespace WXServer

/-- Translation of the cloud-function `getGraphQLParams(param)`
(src/demo.js:316-347).  A string `variables` value is JSON-decoded and the
decoded value is kept as is; decode failure throws
`httpError(400, 'Variables are invalid JSON.')`; a non-string value of
`typeof` other than "object" normalizes to null. -/
def getGraphQLParams {ε : Type} (jsonParse : String → Option JSValue)
    (param : WxParams) : Except (TaggedFailure ε) GraphQLParams :=
  let query : Option String := stringOrNull param.query
  let operationName : Option String := stringOrNull param.operationName
  match param.variableValues with
  | .str s =>
    match jsonParse s with
    | some v =>
      .ok { query := query, variableValues := v, operationName := operationName,
            raw := param.raw }
    | none => .error (httpError 400 "Variables are invalid JSON." none none)
  | v =>
    if v.typeof = "object" then
      .ok { query := query, variableValues := v, operationName := operationName,
            raw := param.raw }
    else
      .ok { query := query, variableValues := JSValue.null,
            operationName := operationName, raw := param.raw }

end WXServer

/-- The body of the `try` block of `graphqlWXServer` (src/demo.js:207-296),
with the thrown `httpError` objects as the `Except` error and a trace of the
steps the run performed.  Statement order follows the source: parameter
extraction, schema presence check, query presence check, schema validation,
parse, document validation, execution. -/
def graphqlWXServerCore {σ δ ε ρ υ φ : Type} (X : Externals σ δ ε ρ υ φ)
    (options : OptionsData σ δ ε ρ υ φ) :
    Except (TaggedFailure ε) (ExecutionResult ε υ) × List Step :=
  match WXServer.getGraphQLParams X.jsonParse options.wxParams with
  | .error e => (.error e, [.getParams])
  | .ok params =>
    match options.schema with
    | none =>
      (.error (httpError 500 "GraphQL middleware options must contain a schema." none none),
        [.getParams, .schemaCheck])
    | some schema =>
      match params.query with
      | none =>
        (.error (httpError 400 "Must provide query string." none none),
          [.getParams, .schemaCheck, .queryCheck])
      | some query =>
        let schemaValidationErrors := X.validateSchema schema
        if 0 < schemaValidationErrors.length then
          (.error (httpError 500 "GraphQL schema validation error."
              (some schemaValidationErrors) none),
            [.getParams, .schemaCheck, .queryCheck, .validateSchemaStep])
        else
          match (options.customParseFn.getD X.parse)
              { body := query, name := "GraphQL request" } with
          | .error syntaxError =>
            (.error (httpError 400 "GraphQL syntax error." (some [syntaxError]) none),
              [.getParams, .schemaCheck, .queryCheck, .validateSchemaStep, .parseStep])
          | .ok documentAST =>
            let validationErrors :=
              (options.customValidateFn.getD X.validate) schema documentAST
                (X.specifiedRules ++ options.validationRules.getD [])
            if 0 < validationErrors.length then
              (.error (httpError 400 "GraphQL validation error." (some validationErrors) none),
                [.getParams, .schemaCheck, .queryCheck, .validateSchemaStep, .parseStep,
                  .validateDoc])
            else
              match (options.customExecuteFn.getD X.execute)
                  { schema := schema, document := documentAST,
                    rootValue := options.rootValue, contextValue := options.context,
                    variableValues := params.variableValues,
                    operationName := params.operationName,
                    fieldResolver := options.fieldResolver,
                    typeResolver := options.typeResolver } with
              | .error contextError =>
                (.error (httpError 400 "GraphQL execution context error."
                    (some [contextError]) none),
                  [.getParams, .schemaCheck, .queryCheck, .validateSchemaStep, .parseStep,
                    .validateDoc, .execute])
              | .ok result =>
                (.ok result,
                  [.getParams, .schemaCheck, .queryCheck, .validateSchemaStep, .parseStep,
                    .validateDoc, .execute])

/-- Translation of `graphqlWXServer(options)` (src/demo.js:200-303): run the
pipeline, catch any failure at the boundary, and return either the executor's
result as is or the failure envelope.  The function is total: the promise the
source returns never rejects. -/
def graphqlWXServer {σ δ ε ρ υ φ : Type} (X : Externals σ δ ε ρ υ φ)
    (options : OptionsData σ δ ε ρ υ φ) : ResultEnvelope ε υ :=
  match (graphqlWXServerCore X options).1 with
  | .ok result =>
    { data := result.data,
      errors := result.errors.map (fun l => l.map ErrVal.gqlErr),
      extensions := result.extensions }
  | .error error => failureEnvelope error

/-- The fields of the parsed request body (`bodyData`) that the HTTP
extractor reads.  Body parsing itself (`parseBody`) is an external
collaborator; its output object is an input here, with `undefined` fields
when absent. -/
structure BodyData : Type where
  query : JSValue
  variableValues : JSValue
  operationName : JSValue
  raw : JSValue

/-- The facets of an HTTP request the middleware consumes: the method, the
URL query string viewed through `URLSearchParams.get` (src/demo.js:660), the
parsed body, the outcome of content negotiation
(`accepts(request).types(['json', 'html']) === 'html'`, src/demo.js:701),
and the request object itself in its role as default context value
(`optionsData.context ?? request`, src/demo.js:423). -/
structure Request (υ : Type) : Type where
  method : String
  urlGet : String → Option String
  body : BodyData
  acceptsHTMLOverJSON : Bool
  asContext : υ

/-- Source priority used for every field of the HTTP extractor:
`urlData.get(key) ?? bodyData.field` — a URL query parameter is a string
when present, otherwise the body field is used. -/
def urlOrBody (urlGet : String → Option String) (key : String)
    (bodyField : JSValue) : JSValue :=
  match urlGet key with
  | some s => JSValue.str s
  | none => bodyField

namespace HTTPServer

/-- Translation of the HTTP `getGraphQLParams(request)` (src/demo.js:657-693).
Field handling is the same as the cloud variant's, applied to the merged
URL-or-body value; `raw` is true when a `raw` URL parameter is present or the
body has a `raw` field that is not undefined (src/demo.js:690). -/
def getGraphQLParams {ε υ : Type} (jsonParse : String → Option JSValue)
    (request : Request υ) : Except (TaggedFailure ε) GraphQLParams :=
  let query : Option String :=
    stringOrNull (urlOrBody request.urlGet "query" request.body.query)
  let operationName : Option String :=
    stringOrNull (urlOrBody request.urlGet "operationName" request.body.operationName)
  let raw : Bool :=
    (request.urlGet "raw").isSome ||
      (match request.body.raw with
        | JSValue.undefined => false
        | _ => true)
  match urlOrBody request.urlGet "variables" request.body.variableValues with
  | .str s =>
    match jsonParse s with
    | some v =>
      .ok { query := query, variableValues := v, operationName := operationName,
            raw := JSValue.bool raw }
    | none => .error (httpError 400 "Variables are invalid JSON." none none)
  | v =>
    if v.typeof = "object" then
      .ok { query := query, variableValues := v, operationName := operationName,
            raw := JSValue.bool raw }
    else
      .ok { query := query, variableValues := JSValue.null,
            operationName := operationName, raw := JSValue.bool raw }

end HTTPServer

/-- Translation of `canDisplayGraphiQL(request, params)` (src/demo.js:698-702):
not requested as raw, and content negotiation prefers HTML. -/
def canDisplayGraphiQL {υ : Type} (request : Request υ) (params : GraphQLParams) :
    Bool :=
  !params.raw.truthy && request.acceptsHTMLOverJSON

/-- The data object `respondWithGraphiQL` builds for the renderer
(src/demo.js:636-641): `params?.query` is undefined when `params` is, null
when the extracted query is. -/
structure GraphiQLData (φ υ : Type) : Type where
  query : JSValue
  variableValues : JSValue
  operationName : JSValue
  result : Option (FormattedEnvelope φ υ)

/-- What was written to the response: nothing yet, a JSON envelope (either
through `response.json` or through `sendResponse` with a pretty flag), or the
GraphiQL page built from a data object and an options bag.  Serialization
itself (`JSON.stringify`, `renderGraphiQL`, `Buffer.from`) is external, so
the body records what was handed to it. -/
inductive ResponseBody (φ υ : Type) : Type where
  | empty : ResponseBody φ υ
  | json : FormattedEnvelope φ υ → Bool → Bool → ResponseBody φ υ
  | graphiqlPage : GraphiQLData φ υ → Option υ → ResponseBody φ υ

/-- The mutable response object: status code (200 until assigned), headers,
whether an express-style `response.json` method exists (src/demo.js:595),
and the body written at the end. -/
structure Response (φ υ : Type) : Type where
  statusCode : Nat
  headers : List (String × String)
  hasJsonMethod : Bool
  body : ResponseBody φ υ

/-- `response.setHeader(key, value)`: replaces any previous value of the
header. -/
def setHeader (headers : List (String × String)) (key value : String) :
    List (String × String) :=
  headers.filter (fun h => h.1 != key) ++ [(key, value)]

/-- Translation of `sendResponse(response, type, data)` (src/demo.js:707-712):
sets `Content-Type` and ends the response with the payload (the byte length
header is computed by the external `Buffer` and not modelled). -/
def sendResponse {φ υ : Type} (response : Response φ υ) (type : String)
    (body : ResponseBody φ υ) : Response φ υ :=
  { response with
    headers := setHeader response.headers "Content-Type" (type ++ "; charset=utf-8"),
    body := body }

/-- Translation of `respondWithGraphiQL(response, options?, params?, result?)`
(src/demo.js:630-644). -/
def respondWithGraphiQL {φ υ : Type} (response : Response φ υ) (options : Option υ)
    (params : Option GraphQLParams) (result : Option (FormattedEnvelope φ υ)) :
    Response φ υ :=
  let data : GraphiQLData φ υ :=
    { query :=
        match params with
        | some p =>
          match p.query with
          | some s => JSValue.str s
          | none => JSValue.null
        | none => JSValue.undefined,
      variableValues :=
        match params with
        | some p => p.variableValues
        | none => JSValue.undefined,
      operationName :=
        match params with
        | some p =>
          match p.operationName with
          | some s => JSValue.str s
          | none => JSValue.null
        | none => JSValue.undefined,
      result := result }
  sendResponse response "text/html" (ResponseBody.graphiqlPage data options)

/-- `const graphiql = optionsData.graphiql ?? false` (src/demo.js:421). -/
def graphiqlOf {υ : Type} (g : GraphiqlRaw υ) : GraphiqlRaw υ :=
  match g with
  | .undef => GraphiqlRaw.bool false
  | g => g

/-- The test `graphiql !== false` applied to the defaulted option
(src/demo.js:451). -/
def graphiqlNotFalse {υ : Type} (g : GraphiqlRaw υ) : Bool :=
  match graphiqlOf g with
  | GraphiqlRaw.bool false => false
  | _ => true

/-- `if (typeof graphiql !== 'boolean') graphiqlOptions = graphiql`
(src/demo.js:452-454): the options bag when one was supplied. -/
def graphiqlOptionsOf {υ : Type} (g : GraphiqlRaw υ) : Option υ :=
  match graphiqlOf g with
  | GraphiqlRaw.opts o => some o
  | _ => none

/-- Outcome of the HTTP try-block up to the boundary: the executor's result
(after optional extensions), a thrown `httpError`, or one of the two early
`respondWithGraphiQL` returns (the flag is true when `params` was handed to
the explorer, src/demo.js:507, and false for the no-query return,
src/demo.js:460). -/
inductive PipeOutcome (ε υ : Type) : Type where
  | ok : ExecutionResult ε υ → PipeOutcome ε υ
  | failed : TaggedFailure ε → PipeOutcome ε υ
  | graphiqlEarly : Bool → PipeOutcome ε υ

/-- The outcome together with the outer-scope variables the try block wrote
(`showGraphiQL`, `graphiqlOptions`) and the step trace. -/
structure PipeState (ε υ : Type) : Type where
  outcome : PipeOutcome ε υ
  showGraphiQL : Bool
  graphiqlOptions : Option υ
  trace : List Step

/-- The HTTP try block after a successful parameter extraction
(src/demo.js:413-552): options resolution already happened (literal options
object), then schema presence, method check, explorer eligibility, query
presence, schema validation, parse, document validation, the GET-only
operation-kind guard, execution and the optional extensions step, in source
order, short-circuiting on the first thrown `httpError`. -/
def pipeline {σ δ ε ρ υ φ : Type} (X : Externals σ δ ε ρ υ φ)
    (options : OptionsData σ δ ε ρ υ φ) (request : Request υ)
    (params : GraphQLParams) : PipeState ε υ :=
  match options.schema with
  | none =>
    { outcome := .failed
        (httpError 500 "GraphQL middleware options must contain a schema." none none),
      showGraphiQL := false, graphiqlOptions := none,
      trace := [.getParams, .resolveOptions, .schemaCheck] }
  | some schema =>
    if request.method != "GET" && request.method != "POST" then
      { outcome := .failed
          (httpError 405 "GraphQL only supports GET and POST requests." none
            (some [("Allow", "GET, POST")])),
        showGraphiQL := false, graphiqlOptions := none,
        trace := [.getParams, .resolveOptions, .schemaCheck, .methodCheck] }
    else
      let showGraphiQL : Bool :=
        canDisplayGraphiQL request params && graphiqlNotFalse options.graphiql
      let graphiqlOptions : Option υ := graphiqlOptionsOf options.graphiql
      match params.query with
      | none =>
        if showGraphiQL then
          { outcome := .graphiqlEarly false, showGraphiQL := showGraphiQL,
            graphiqlOptions := graphiqlOptions,
            trace := [.getParams, .resolveOptions, .schemaCheck, .methodCheck, .queryCheck] }
        else
          { outcome := .failed (httpError 400 "Must provide query string." none none),
            showGraphiQL := showGraphiQL, graphiqlOptions := graphiqlOptions,
            trace := [.getParams, .resolveOptions, .schemaCheck, .methodCheck, .queryCheck] }
      | some query =>
        let schemaValidationErrors := X.validateSchema schema
        if 0 < schemaValidationErrors.length then
          { outcome := .failed (httpError 500 "GraphQL schema validation error."
              (some schemaValidationErrors) none),
            showGraphiQL := showGraphiQL, graphiqlOptions := graphiqlOptions,
            trace := [.getParams, .resolveOptions, .schemaCheck, .methodCheck, .queryCheck,
              .validateSchemaStep] }
        else
          match (options.customParseFn.getD X.parse)
              { body := query, name := "GraphQL request" } with
          | .error syntaxError =>
            { outcome := .failed (httpError 400 "GraphQL syntax error."
                (some [syntaxError]) none),
              showGraphiQL := showGraphiQL, graphiqlOptions := graphiqlOptions,
              trace := [.getParams, .resolveOptions, .schemaCheck, .methodCheck, .queryCheck,
                .validateSchemaStep, .parseStep] }
          | .ok documentAST =>
            let validationErrors :=
              (options.customValidateFn.getD X.validate) schema documentAST
                (X.specifiedRules ++ options.validationRules.getD [])
            if 0 < validationErrors.length then
              { outcome := .failed (httpError 400 "GraphQL validation error."
                  (some validationErrors) none),
                showGraphiQL := showGraphiQL, graphiqlOptions := graphiqlOptions,
                trace := [.getParams, .resolveOptions, .schemaCheck, .methodCheck,
                  .queryCheck, .validateSchemaStep, .parseStep, .validateDoc] }
            else
              let context : υ :=
                match options.context with
                | some c => c
                | none => request.asContext
              let runExecute : List Step → PipeState ε υ := fun pre =>
                match (options.customExecuteFn.getD X.execute)
                    { schema := schema, document := documentAST,
                      rootValue := options.rootValue, contextValue := some context,
                      variableValues := params.variableValues,
                      operationName := params.operationName,
                      fieldResolver := options.fieldResolver,
                      typeResolver := options.typeResolver } with
                | .error contextError =>
                  { outcome := .failed (httpError 400 "GraphQL execution context error."
                      (some [contextError]) none),
                    showGraphiQL := showGraphiQL, graphiqlOptions := graphiqlOptions,
                    trace := pre ++ [.execute] }
                | .ok result =>
                  match options.extensions with
                  | some extensionsFn =>
                    let ext := extensionsFn
                      { document := documentAST,
                        variableValues := params.variableValues,
                        operationName := params.operationName,
                        result := result, context := context }
                    let result2 :=
                      match ext with
                      | some e => { result with extensions := some e }
                      | none => result
                    { outcome := .ok result2, showGraphiQL := showGraphiQL,
                      graphiqlOptions := graphiqlOptions,
                      trace := pre ++ [.execute, .extensionsStep] }
                  | none =>
                    { outcome := .ok result, showGraphiQL := showGraphiQL,
                      graphiqlOptions := graphiqlOptions,
                      trace := pre ++ [.execute] }
              if request.method == "GET" then
                match X.getOperationAST documentAST params.operationName with
                | some operationAST =>
                  if operationAST.operation != "query" then
                    if showGraphiQL then
                      { outcome := .graphiqlEarly true, showGraphiQL := showGraphiQL,
                        graphiqlOptions := graphiqlOptions,
                        trace := [.getParams, .resolveOptions, .schemaCheck, .methodCheck,
                          .queryCheck, .validateSchemaStep, .parseStep, .validateDoc,
                          .operationCheck] }
                    else
                      { outcome := .failed (httpError 405
                          ("Can only perform a " ++ operationAST.operation ++
                            " operation from a POST request.") none
                          (some [("Allow", "POST")])),
                        showGraphiQL := showGraphiQL, graphiqlOptions := graphiqlOptions,
                        trace := [.getParams, .resolveOptions, .schemaCheck, .methodCheck,
                          .queryCheck, .validateSchemaStep, .parseStep, .validateDoc,
                          .operationCheck] }
                  else
                    runExecute [.getParams, .resolveOptions, .schemaCheck, .methodCheck,
                      .queryCheck, .validateSchemaStep, .parseStep, .validateDoc,
                      .operationCheck]
                | none =>
                  runExecute [.getParams, .resolveOptions, .schemaCheck, .methodCheck,
                    .queryCheck, .validateSchemaStep, .parseStep, .validateDoc,
                    .operationCheck]
              else
                runExecute [.getParams, .resolveOptions, .schemaCheck, .methodCheck,
                  .queryCheck, .validateSchemaStep, .parseStep, .validateDoc]

/-- The catch block's transport effects (src/demo.js:553-562):
`response.statusCode = error.status ?? 500` — the source reads `status`,
a field `httpError` never sets (the code lives in `statusCode`) — and then
any headers attached to the failure are set on the response. -/
def applyFailureToResponse {ε φ υ : Type} (response : Response φ υ)
    (error : TaggedFailure ε) : Response φ υ :=
  let response1 := { response with statusCode := error.status.getD 500 }
  match error.headers with
  | some hs =>
    { response1 with
      headers := hs.foldl (fun acc kv => setHeader acc kv.1 kv.2) response1.headers }
  | none => response1

/-- The tail of the middleware after the pipeline boundary
(src/demo.js:567-600): set status 500 when the status is still 200 and the
result has no data, map `result.errors` through the formatting function,
then render GraphiQL, call `response.json`, or send the serialized payload. -/
def finishResponse {ε φ υ : Type} (formatErrorFn : ErrVal ε → φ)
    (pretty showGraphiQL : Bool) (graphiqlOptions : Option υ)
    (params : Option GraphQLParams) (response : Response φ υ)
    (result : ResultEnvelope ε υ) : Response φ υ :=
  let response :=
    if response.statusCode == 200 && result.data.looseNull then
      { response with statusCode := 500 }
    else response
  let formattedResult : FormattedEnvelope φ υ :=
    { data := result.data,
      errors := result.errors.map (fun l => l.map formatErrorFn),
      extensions := result.extensions }
  if showGraphiQL then
    respondWithGraphiQL response graphiqlOptions params (some formattedResult)
  else if !pretty && response.hasJsonMethod then
    { response with body := ResponseBody.json formattedResult true false }
  else
    sendResponse response "application/json" (ResponseBody.json formattedResult false pretty)

/-- Translation of the returned `graphqlMiddleware(request, response)`
closure (src/demo.js:384-627), for a literal options object: extract the
parameters (on failure the options are still resolved for `pretty` and the
format function, then the failure is rethrown into the catch), run the
pipeline, apply the catch block to any failure, and finish the response.
Also returns the step trace.  The function is total: every failure is caught
at this boundary. -/
def graphqlMiddleware {σ δ ε ρ υ φ : Type} (X : Externals σ δ ε ρ υ φ)
    (options : OptionsData σ δ ε ρ υ φ) (request : Request υ)
    (response : Response φ υ) : Response φ υ × List Step :=
  let formatErrorFn : ErrVal ε → φ :=
    options.customFormatErrorFn.getD (options.formatError.getD X.formatError)
  let pretty : Bool := options.pretty.getD false
  match HTTPServer.getGraphQLParams X.jsonParse request with
  | .error error =>
    (finishResponse formatErrorFn pretty false none none
        (applyFailureToResponse response error) (failureEnvelope error),
      [.getParams, .resolveOptions])
  | .ok params =>
    let st := pipeline X options request params
    match st.outcome with
    | .graphiqlEarly withParams =>
      (respondWithGraphiQL response st.graphiqlOptions
          (if withParams then some params else none) none,
        st.trace)
    | .failed error =>
      (finishResponse formatErrorFn pretty st.showGraphiQL st.graphiqlOptions
          (some params) (applyFailureToResponse response error)
          (failureEnvelope error),
        st.trace)
    | .ok result =>
      (finishResponse formatErrorFn pretty st.showGraphiQL st.graphiqlOptions
          (some params) response
          { data := result.data,
            errors := result.errors.map (fun l => l.map ErrVal.gqlErr),
            extensions := result.extensions },
        st.trace)

/-- Translation of `graphqlHTTP(options)` (src/demo.js:379-628): returns the
middleware closure for the given options. -/
def graphqlHTTP {σ δ ε ρ υ φ : Type} (X : Externals σ δ ε ρ υ φ)
    (options : OptionsData σ δ ε ρ υ φ) :
    Request υ → Response φ υ → Response φ υ × List Step :=
  fun request response => graphqlMiddleware X options request response

/-- Concrete WxParams with all fields absent, for witnesses. -/
def emptyWxParams : WxParams :=
  { query := JSValue.undefined, variableValues := JSValue.undefined,
    operationName := JSValue.undefined, raw := JSValue.undefined }

/-- Concrete parsed body with all fields absent, for witnesses. -/
def emptyBody : BodyData :=
  { query := JSValue.undefined, variableValues := JSValue.undefined,
    operationName := JSValue.undefined, raw := JSValue.undefined }

/-- Concrete oracle bundle for witnesses: the engine accepts everything and
`JSON.parse` decodes only the string "5" (to the number 5). -/
def XNat : Externals Nat Nat Nat Nat Nat Nat :=
  { jsonParse := fun s => if s = "5" then some (JSValue.num 5) else none,
    validateSchema := fun _ => [],
    parse := fun _ => Except.ok 0,
    validate := fun _ _ _ => [],
    execute := fun _ => Except.ok
      { data := JSValue.null, errors := none, extensions := none },
    getOperationAST := fun _ _ => none,
    specifiedRules := [],
    formatError := fun _ => 0 }

/-- Concrete options bag for witnesses: a schema is supplied, nothing else. -/
def ONat : OptionsData Nat Nat Nat Nat Nat Nat :=
  { wxParams := emptyWxParams, schema := some 0, context := none, rootValue := none,
    pretty := none, validationRules := none, customValidateFn := none,
    customExecuteFn := none, customFormatErrorFn := none, customParseFn := none,
    formatError := none, extensions := none, fieldResolver := none,
    typeResolver := none, graphiql := GraphiqlRaw.undef }

/-- Concrete GET request with an empty URL query string and empty body. -/
def RNat : Request Nat :=
  { method := "GET", urlGet := fun _ => none, body := emptyBody,
    acceptsHTMLOverJSON := false, asContext := 0 }

/-- Concrete fresh response: express default status 200, a `json` method. -/
def resp200 : Response Nat Nat :=
  { statusCode := 200, headers := [], hasJsonMethod := true,
    body := ResponseBody.empty }

/-- C8: in both variants the extracted `query` is the supplied value exactly
when that value is a string and null otherwise; `operationName` likewise; a
`variables` value that is neither a string nor an object normalizes to null.
For the HTTP variant the supplied value is the URL-or-body merge. -/
theorem extracted_params_coercion {ε υ : Type} (jsonParse : String → Option JSValue)
    (param : WxParams) (request : Request υ) :
    (∀ p : GraphQLParams,
      WXServer.getGraphQLParams (ε := ε) jsonParse param = .ok p →
        p.query = stringOrNull param.query ∧
        p.operationName = stringOrNull param.operationName) ∧
    (param.variableValues.typeof ≠ "string" → param.variableValues.typeof ≠ "object" →
      WXServer.getGraphQLParams (ε := ε) jsonParse param =
        .ok { query := stringOrNull param.query, variableValues := JSValue.null,
              operationName := stringOrNull param.operationName, raw := param.raw }) ∧
    (∀ p : GraphQLParams,
      HTTPServer.getGraphQLParams (ε := ε) jsonParse request = .ok p →
        p.query = stringOrNull (urlOrBody request.urlGet "query" request.body.query) ∧
        p.operationName =
          stringOrNull (urlOrBody request.urlGet "operationName" request.body.operationName)) ∧
    ((urlOrBody request.urlGet "variables" request.body.variableValues).typeof ≠ "string" →
      (urlOrBody request.urlGet "variables" request.body.variableValues).typeof ≠ "object" →
      ∃ p : GraphQLParams,
        HTTPServer.getGraphQLParams (ε := ε) jsonParse request = .ok p ∧
          p.variableValues = JSValue.null) := by
  refine ⟨?_, ?_, ?_, ?_⟩
  · intro p h
    unfold WXServer.getGraphQLParams at h
    cases hv : param.variableValues <;> simp only [hv] at h
    case str s =>
      cases hj : jsonParse s <;> simp only [hj] at h
      · exact absurd h (by simp)
      · cases h
        exact ⟨rfl, rfl⟩
    all_goals
      split at h <;> · cases h; exact ⟨rfl, rfl⟩
  · intro hns hno
    unfold WXServer.getGraphQLParams
    cases hv : param.variableValues <;>
      simp only [hv, JSValue.typeof] at hns hno ⊢ <;>
      first
      | rfl
      | (exact absurd rfl hno)
      | (exact absurd rfl hns)
  · intro p h
    unfold HTTPServer.getGraphQLParams at h
    cases hv : urlOrBody request.urlGet "variables" request.body.variableValues <;>
      simp only [hv] at h
    case str s =>
      cases hj : jsonParse s <;> simp only [hj] at h
      · exact absurd h (by simp)
      · cases h
        exact ⟨rfl, rfl⟩
    all_goals
      split at h <;> · cases h; exact ⟨rfl, rfl⟩
  · intro hns hno
    unfold HTTPServer.getGraphQLParams
    cases hv : urlOrBody request.urlGet "variables" request.body.variableValues <;>
      simp only [hv, JSValue.typeof] at hns hno ⊢ <;>
      first
      | exact ⟨_, rfl, rfl⟩
      | (exact absurd rfl hno)
      | (exact absurd rfl hns)

/-- C8 witness: a concrete event whose query is a string, whose
operationName is a boolean and whose variables field is the number 3. -/
theorem extracted_params_coercion_witness :
    WXServer.getGraphQLParams (ε := Nat) (fun _ => none)
      { query := JSValue.str "q", variableValues := JSValue.num 3,
        operationName := JSValue.bool true, raw := JSValue.undefined } =
      Except.ok { query := some "q", variableValues := JSValue.null,
                  operationName := none, raw := JSValue.undefined } :=
  (extracted_params_coercion (υ := Nat) (fun _ => none)
    { query := JSValue.str "q", variableValues := JSValue.num 3,
      operationName := JSValue.bool true, raw := JSValue.undefined }
    RNat).2.1 (by decide) (by decide)

/-- C10: in both variants, a string `variables` field holding valid JSON is
replaced by the decoded value as is, even when that value is not an object;
the normalize-to-null rule never touches the decoded result. -/
theorem decoded_variables_kept {ε υ : Type} (jsonParse : String → Option JSValue)
    (param : WxParams) (request : Request υ) (s : String) (v : JSValue)
    (hj : jsonParse s = some v) :
    (param.variableValues = JSValue.str s →
      WXServer.getGraphQLParams (ε := ε) jsonParse param =
        .ok { query := stringOrNull param.query, variableValues := v,
              operationName := stringOrNull param.operationName,
              raw := param.raw }) ∧
    (urlOrBody request.urlGet "variables" request.body.variableValues = JSValue.str s →
      ∃ p : GraphQLParams,
        HTTPServer.getGraphQLParams (ε := ε) jsonParse request = .ok p ∧
          p.variableValues = v) := by
  constructor
  · intro hv
    unfold WXServer.getGraphQLParams
    rw [hv]
    dsimp only
    rw [hj]
  · intro hv
    unfold HTTPServer.getGraphQLParams
    rw [hv]
    dsimp only
    rw [hj]
    exact ⟨_, rfl, rfl⟩

/-- C10 witness: the string "5" decodes to the number 5, which is returned
as the variables value although it is not an object. -/
theorem decoded_variables_kept_witness :
    WXServer.getGraphQLParams (ε := Nat) XNat.jsonParse
      { query := JSValue.undefined, variableValues := JSValue.str "5",
        operationName := JSValue.undefined, raw := JSValue.undefined } =
      Except.ok { query := none, variableValues := JSValue.num 5,
                  operationName := none, raw := JSValue.undefined } :=
  (decoded_variables_kept (υ := Nat) XNat.jsonParse
    { query := JSValue.undefined, variableValues := JSValue.str "5",
      operationName := JSValue.undefined, raw := JSValue.undefined }
    RNat "5" (JSValue.num 5) rfl).1 rfl

/-- C4: a `variables` field that is a string but not valid JSON makes
parameter extraction fail in both variants with
`httpError(400, 'Variables are invalid JSON.')`, and the cloud handler's
overall envelope reports that failure (status code 400 and that message) in
its non-empty errors list. -/
theorem invalid_json_variables_400 {σ δ ε ρ υ φ : Type}
    (X : Externals σ δ ε ρ υ φ) (options : OptionsData σ δ ε ρ υ φ)
    (request : Request υ) (s : String) (hj : X.jsonParse s = none) :
    (options.wxParams.variableValues = JSValue.str s →
      WXServer.getGraphQLParams (ε := ε) X.jsonParse options.wxParams =
        .error (httpError 400 "Variables are invalid JSON." none none) ∧
      graphqlWXServer X options =
        { data := JSValue.undefined,
          errors := some [ErrVal.failure
            (httpError 400 "Variables are invalid JSON." none none)],
          extensions := none } ∧
      (httpError (ε := ε) 400 "Variables are invalid JSON." none none).statusCode
        = 400) ∧
    (urlOrBody request.urlGet "variables" request.body.variableValues
        = JSValue.str s →
      HTTPServer.getGraphQLParams (ε := ε) (υ := υ) X.jsonParse request =
        .error (httpError 400 "Variables are invalid JSON." none none)) := by
  constructor
  · intro hv
    have hx : WXServer.getGraphQLParams (ε := ε) X.jsonParse options.wxParams =
        .error (httpError 400 "Variables are invalid JSON." none none) := by
      unfold WXServer.getGraphQLParams
      rw [hv]
      dsimp only
      rw [hj]
    refine ⟨hx, ?_, rfl⟩
    unfold graphqlWXServer graphqlWXServerCore
    rw [hx]
    rfl
  · intro hv
    unfold HTTPServer.getGraphQLParams
    rw [hv]
    dsimp only
    rw [hj]

/-- C4 witness: a concrete event whose variables string the JSON parser
rejects. -/
theorem invalid_json_variables_400_witness :
    graphqlWXServer XNat
      { ONat with wxParams :=
          { emptyWxParams with variableValues := JSValue.str "x" } } =
      { data := JSValue.undefined,
        errors := some [ErrVal.failure
          (httpError 400 "Variables are invalid JSON." none none)],
        extensions := none } :=
  ((invalid_json_variables_400 XNat
    { ONat with wxParams :=
        { emptyWxParams with variableValues := JSValue.str "x" } }
    RNat "x" rfl).1 rfl).2.1

/-- C5: when the extracted query is null and the explorer-display conditions
are not met (and a schema is supplied, so the run reaches the query check),
the pipeline fails with `httpError(400, 'Must provide query string.')` and
the failure envelope's errors list is non-empty, in both variants. -/
theorem missing_query_400 {σ δ ε ρ υ φ : Type} (X : Externals σ δ ε ρ υ φ)
    (options : OptionsData σ δ ε ρ υ φ) (request : Request υ)
    (params : GraphQLParams) (schema : σ)
    (hs : options.schema = some schema) (hq : params.query = none) :
    (WXServer.getGraphQLParams (ε := ε) X.jsonParse options.wxParams = .ok params →
      (graphqlWXServerCore X options).1 =
        .error (httpError 400 "Must provide query string." none none) ∧
      graphqlWXServer X options =
        { data := JSValue.undefined,
          errors := some [ErrVal.failure
            (httpError 400 "Must provide query string." none none)],
          extensions := none }) ∧
    ((request.method = "GET" ∨ request.method = "POST") →
      (canDisplayGraphiQL request params = false ∨
        options.graphiql = GraphiqlRaw.undef ∨
        options.graphiql = GraphiqlRaw.bool false) →
      (pipeline X options request params).outcome =
        PipeOutcome.failed (httpError 400 "Must provide query string." none none)) := by
  constructor
  · intro hp
    have hc : (graphqlWXServerCore X options).1 =
        .error (httpError 400 "Must provide query string." none none) := by
      unfold graphqlWXServerCore
      rw [hp]
      dsimp only
      rw [hs]
      dsimp only
      rw [hq]
    refine ⟨hc, ?_⟩
    unfold graphqlWXServer
    rw [hc]
    rfl
  · intro hm hsg
    unfold pipeline
    rw [hs]
    have hmeth : (request.method != "GET" && request.method != "POST") = false := by
      rcases hm with h | h <;> simp [h]
    rw [hmeth]
    dsimp only
    rw [hq]
    have hshow :
        (canDisplayGraphiQL request params && graphiqlNotFalse options.graphiql)
          = false := by
      rcases hsg with h | h | h
      · simp [h]
      · simp [h, graphiqlNotFalse, graphiqlOf]
      · simp [h, graphiqlNotFalse, graphiqlOf]
    rw [hshow]
    simp

/-- C5 witness: a concrete event with no query at all against a supplied
schema. -/
theorem missing_query_400_witness :
    (graphqlWXServerCore XNat ONat).1 =
      Except.error (httpError 400 "Must provide query string." none none) ∧
    graphqlWXServer XNat ONat =
      { data := JSValue.undefined,
        errors := some [ErrVal.failure
          (httpError 400 "Must provide query string." none none)],
        extensions := none } :=
  (missing_query_400 XNat ONat RNat
    { query := none, variableValues := JSValue.null, operationName := none,
      raw := JSValue.undefined } 0 rfl rfl).1 rfl

/-- A failure whose attached error list, when present, is non-empty.  Every
failure either pipeline can produce satisfies this, because every call site
that attaches a `graphqlErrors` list attaches a non-empty one. -/
def TaggedFailure.wellAttached {ε : Type} (f : TaggedFailure ε) : Prop :=
  match f.graphqlErrors with
  | none => True
  | some l => l ≠ []

/-- A well-attached failure's envelope always carries a non-empty errors
list: the attached list when present, else the one-element list holding the
failure itself. -/
theorem failureEnvelope_errors_nonempty {ε υ : Type} (f : TaggedFailure ε)
    (h : f.wellAttached) :
    ∃ l, (failureEnvelope (υ := υ) f).errors = some l ∧ l ≠ [] := by
  unfold TaggedFailure.wellAttached at h
  unfold failureEnvelope
  cases hg : f.graphqlErrors with
  | none => exact ⟨[ErrVal.failure f], rfl, by simp⟩
  | some l =>
    rw [hg] at h
    exact ⟨l.map ErrVal.gqlErr, rfl, by simpa using h⟩

/-- The only failure the cloud extractor throws carries no attached list. -/
theorem wx_params_failure_no_attached {ε : Type}
    (jsonParse : String → Option JSValue) (param : WxParams)
    (f : TaggedFailure ε)
    (h : WXServer.getGraphQLParams (ε := ε) jsonParse param = .error f) :
    f.graphqlErrors = none := by
  unfold WXServer.getGraphQLParams at h
  split at h
  · split at h
    · exact absurd h (by simp)
    · cases h
      rfl
  · split at h <;> exact absurd h (by simp)

/-- The only failure the HTTP extractor throws carries no attached list. -/
theorem http_params_failure_no_attached {ε υ : Type}
    (jsonParse : String → Option JSValue) (request : Request υ)
    (f : TaggedFailure ε)
    (h : HTTPServer.getGraphQLParams (ε := ε) jsonParse request = .error f) :
    f.graphqlErrors = none := by
  unfold HTTPServer.getGraphQLParams at h
  cases hv : urlOrBody request.urlGet "variables" request.body.variableValues <;>
    rw [hv] at h
  case str s =>
    dsimp only at h
    cases hj : jsonParse s <;> rw [hj] at h <;> dsimp only at h
    · cases h
      rfl
    · exact absurd h (by simp)
  all_goals simp [JSValue.typeof] at h

/-- Every failure the cloud pipeline can raise is well-attached. -/
theorem graphqlWXServerCore_failure_wellAttached {σ δ ε ρ υ φ : Type}
    (X : Externals σ δ ε ρ υ φ) (options : OptionsData σ δ ε ρ υ φ) :
    ∀ f : TaggedFailure ε,
      (graphqlWXServerCore X options).1 = .error f → f.wellAttached := by
  intro f
  unfold graphqlWXServerCore
  cases hE : WXServer.getGraphQLParams (ε := ε) X.jsonParse options.wxParams with
  | error e =>
    dsimp only
    intro h
    cases h
    unfold TaggedFailure.wellAttached
    rw [wx_params_failure_no_attached _ _ _ hE]
    trivial
  | ok params =>
    dsimp only
    cases hS : options.schema with
    | none =>
      dsimp only
      intro h
      cases h
      simp [TaggedFailure.wellAttached, httpError]
    | some schema =>
      dsimp only
      cases hQ : params.query with
      | none =>
        dsimp only
        intro h
        cases h
        simp [TaggedFailure.wellAttached, httpError]
      | some query =>
        dsimp only
        by_cases hV : 0 < (X.validateSchema schema).length
        · rw [if_pos hV]
          intro h
          cases h
          simp only [TaggedFailure.wellAttached, httpError]
          exact List.length_pos.mp hV
        · rw [if_neg hV]
          cases hP : (options.customParseFn.getD X.parse)
              { body := query, name := "GraphQL request" } with
          | error syntaxError =>
            dsimp only
            intro h
            cases h
            simp [TaggedFailure.wellAttached, httpError]
          | ok documentAST =>
            dsimp only
            by_cases hW : 0 < ((options.customValidateFn.getD X.validate) schema
                documentAST (X.specifiedRules ++ options.validationRules.getD [])).length
            · rw [if_pos hW]
              intro h
              cases h
              simp only [TaggedFailure.wellAttached, httpError]
              exact List.length_pos.mp hW
            · rw [if_neg hW]
              cases hX2 : (options.customExecuteFn.getD X.execute)
                  { schema := schema, document := documentAST,
                    rootValue := options.rootValue, contextValue := options.context,
                    variableValues := params.variableValues,
                    operationName := params.operationName,
                    fieldResolver := options.fieldResolver,
                    typeResolver := options.typeResolver } with
              | error contextError =>
                dsimp only
                intro h
                cases h
                simp [TaggedFailure.wellAttached, httpError]
              | ok result =>
                dsimp only
                intro h
                exact absurd h (by simp)

/-- Every failure the HTTP pipeline can raise is well-attached. -/
theorem pipeline_failure_wellAttached {σ δ ε ρ υ φ : Type}
    (X : Externals σ δ ε ρ υ φ) (options : OptionsData σ δ ε ρ υ φ)
    (request : Request υ) (params : GraphQLParams) :
    ∀ f : TaggedFailure ε,
      (pipeline X options request params).outcome = PipeOutcome.failed f →
        f.wellAttached := by
  intro f
  unfold pipeline
  cases hS : options.schema with
  | none =>
    try dsimp only
    intro h
    cases h
    simp [TaggedFailure.wellAttached, httpError]
  | some schema =>
    try dsimp only
    by_cases hM : (request.method != "GET" && request.method != "POST") = true
    · rw [if_pos hM]
      intro h
      cases h
      simp [TaggedFailure.wellAttached, httpError]
    · rw [if_neg hM]
      cases hQ : params.query with
      | none =>
        try dsimp only
        by_cases hG : (canDisplayGraphiQL request params &&
            graphiqlNotFalse options.graphiql) = true
        · rw [if_pos hG]
          intro h
          exact absurd h (by simp)
        · rw [if_neg hG]
          intro h
          cases h
          simp [TaggedFailure.wellAttached, httpError]
      | some query =>
        try dsimp only
        by_cases hV : 0 < (X.validateSchema schema).length
        · rw [if_pos hV]
          intro h
          cases h
          simp only [TaggedFailure.wellAttached, httpError]
          exact List.length_pos.mp hV
        · rw [if_neg hV]
          cases hP : (options.customParseFn.getD X.parse)
              { body := query, name := "GraphQL request" } with
          | error syntaxError =>
            try dsimp only
            intro h
            cases h
            simp [TaggedFailure.wellAttached, httpError]
          | ok documentAST =>
            try dsimp only
            by_cases hW : 0 < ((options.customValidateFn.getD X.validate) schema
                documentAST (X.specifiedRules ++ options.validationRules.getD [])).length
            · rw [if_pos hW]
              intro h
              cases h
              simp only [TaggedFailure.wellAttached, httpError]
              exact List.length_pos.mp hW
            · rw [if_neg hW]
              try dsimp only
              by_cases hGet : (request.method == "GET") = true
              · rw [if_pos hGet]
                cases hOp : X.getOperationAST documentAST params.operationName with
                | some operationAST =>
                  try dsimp only
                  by_cases hK : (operationAST.operation != "query") = true
                  · rw [if_pos hK]
                    by_cases hG : (canDisplayGraphiQL request params &&
                        graphiqlNotFalse options.graphiql) = true
                    · rw [if_pos hG]
                      intro h
                      exact absurd h (by simp)
                    · rw [if_neg hG]
                      intro h
                      cases h
                      simp [TaggedFailure.wellAttached, httpError]
                  · rw [if_neg hK]
                    cases hX2 : (options.customExecuteFn.getD X.execute)
                        { schema := schema, document := documentAST,
                          rootValue := options.rootValue,
                          contextValue := some (match options.context with
                            | some c => c
                            | none => request.asContext),
                          variableValues := params.variableValues,
                          operationName := params.operationName,
                          fieldResolver := options.fieldResolver,
                          typeResolver := options.typeResolver } with
                    | error contextError =>
                      try dsimp only
                      intro h
                      cases h
                      simp [TaggedFailure.wellAttached, httpError]
                    | ok result =>
                      try dsimp only
                      cases hExt : options.extensions with
                      | none =>
                        intro h
                        exact absurd h (by simp)
                      | some extensionsFn =>
                        try dsimp only
                        intro h
                        exact absurd h (by simp)
                | none =>
                  try dsimp only
                  cases hX2 : (options.customExecuteFn.getD X.execute)
                      { schema := schema, document := documentAST,
                        rootValue := options.rootValue,
                        contextValue := some (match options.context with
                          | some c => c
                          | none => request.asContext),
                        variableValues := params.variableValues,
                        operationName := params.operationName,
                        fieldResolver := options.fieldResolver,
                        typeResolver := options.typeResolver } with
                  | error contextError =>
                    try dsimp only
                    intro h
                    cases h
                    simp [TaggedFailure.wellAttached, httpError]
                  | ok result =>
                    try dsimp only
                    cases hExt : options.extensions with
                    | none =>
                      intro h
                      exact absurd h (by simp)
                    | some extensionsFn =>
                      try dsimp only
                      intro h
                      exact absurd h (by simp)
              · rw [if_neg hGet]
                cases hX2 : (options.customExecuteFn.getD X.execute)
                    { schema := schema, document := documentAST,
                      rootValue := options.rootValue,
                      contextValue := some (match options.context with
                        | some c => c
                        | none => request.asContext),
                      variableValues := params.variableValues,
                      operationName := params.operationName,
                      fieldResolver := options.fieldResolver,
                      typeResolver := options.typeResolver } with
                | error contextError =>
                  try dsimp only
                  intro h
                  cases h
                  simp [TaggedFailure.wellAttached, httpError]
                | ok result =>
                  try dsimp only
                  cases hExt : options.extensions with
                  | none =>
                    intro h
                    exact absurd h (by simp)
                  | some extensionsFn =>
                    try dsimp only
                    intro h
                    exact absurd h (by simp)

/-- C2: both handlers are total functions of their inputs (the returned
promise never rejects; every failure is caught at the single pipeline
boundary), and on any failure the resulting envelope is
`{data: undefined, errors: E}` where E is the failure's attached
GraphQL-error list when present and the one-element list holding the
failure itself otherwise, so E is non-empty on every reachable failure. -/
theorem failure_caught_envelope_wellformed {σ δ ε ρ υ φ : Type}
    (X : Externals σ δ ε ρ υ φ) (options : OptionsData σ δ ε ρ υ φ)
    (request : Request υ) (params : GraphQLParams) :
    (∀ f : TaggedFailure ε, (graphqlWXServerCore X options).1 = .error f →
      graphqlWXServer X options = failureEnvelope f ∧
      (graphqlWXServer X options).data = JSValue.undefined ∧
      (∀ l, f.graphqlErrors = some l →
        (graphqlWXServer X options).errors = some (l.map ErrVal.gqlErr)) ∧
      (f.graphqlErrors = none →
        (graphqlWXServer X options).errors = some [ErrVal.failure f]) ∧
      ∃ l, (graphqlWXServer X options).errors = some l ∧ l ≠ []) ∧
    (∀ f : TaggedFailure ε,
      HTTPServer.getGraphQLParams (ε := ε) X.jsonParse request = .error f →
      ∃ l, (failureEnvelope (υ := υ) f).errors = some l ∧ l ≠ []) ∧
    (∀ f : TaggedFailure ε,
      (pipeline X options request params).outcome = PipeOutcome.failed f →
      ∃ l, (failureEnvelope (υ := υ) f).errors = some l ∧ l ≠ []) := by
  refine ⟨?_, ?_, ?_⟩
  · intro f h
    have he : graphqlWXServer X options = failureEnvelope f := by
      unfold graphqlWXServer
      rw [h]
    have hwa : f.wellAttached := graphqlWXServerCore_failure_wellAttached X options f h
    refine ⟨he, by rw [he]; rfl, ?_, ?_, ?_⟩
    · intro l hl
      rw [he]
      unfold failureEnvelope
      simp [hl]
    · intro hl
      rw [he]
      unfold failureEnvelope
      simp [hl]
    · rw [he]
      exact failureEnvelope_errors_nonempty f hwa
  · intro f h
    apply failureEnvelope_errors_nonempty
    unfold TaggedFailure.wellAttached
    rw [http_params_failure_no_attached _ _ _ h]
    trivial
  · intro f h
    exact failureEnvelope_errors_nonempty f
      (pipeline_failure_wellAttached X options request params f h)

/-- C2 witness: the missing-query failure of the concrete fixture yields a
non-empty errors list. -/
theorem failure_caught_envelope_wellformed_witness :
    graphqlWXServer XNat ONat =
      failureEnvelope (httpError 400 "Must provide query string." none none) ∧
    ∃ l, (graphqlWXServer XNat ONat).errors = some l ∧ l ≠ [] := by
  have h := (failure_caught_envelope_wellformed XNat ONat RNat
    { query := none, variableValues := JSValue.null, operationName := none,
      raw := JSValue.bool false }).1
    (httpError 400 "Must provide query string." none none) rfl
  exact ⟨h.1, h.2.2.2.2⟩

/-- The formatted envelope a response body carries, when it carries one. -/
def bodyResult {φ υ : Type} : ResponseBody φ υ → Option (FormattedEnvelope φ υ)
  | .empty => none
  | .json env _ _ => some env
  | .graphiqlPage d _ => d.result

/-- `finishResponse` sets status 500 exactly when the status it received is
still 200 and the result has no data payload; no branch changes the status
otherwise. -/
theorem finishResponse_statusCode {ε φ υ : Type} (fmt : ErrVal ε → φ)
    (pretty showGraphiQL : Bool) (go : Option υ) (p : Option GraphQLParams)
    (resp : Response φ υ) (result : ResultEnvelope ε υ) :
    (finishResponse fmt pretty showGraphiQL go p resp result).statusCode =
      if (resp.statusCode == 200 && result.data.looseNull) = true then 500
      else resp.statusCode := by
  unfold finishResponse respondWithGraphiQL sendResponse
  by_cases hc : (resp.statusCode == 200 && result.data.looseNull) = true <;>
    simp [hc] <;>
    (try split) <;> (try split) <;> rfl

/-- A header other than Content-Type survives `finishResponse` in every
branch. -/
theorem finishResponse_headers_mem {ε φ υ : Type} (fmt : ErrVal ε → φ)
    (pretty showGraphiQL : Bool) (go : Option υ) (p : Option GraphQLParams)
    (resp : Response φ υ) (result : ResultEnvelope ε υ) (k v : String)
    (hk : (k != "Content-Type") = true) (h : (k, v) ∈ resp.headers) :
    (k, v) ∈ (finishResponse fmt pretty showGraphiQL go p resp result).headers := by
  have hmem : ∀ hs : List (String × String), (k, v) ∈ hs → ∀ t : String,
      (k, v) ∈ setHeader hs "Content-Type" t := by
    intro hs hh t
    unfold setHeader
    refine List.mem_append.mpr (Or.inl ?_)
    exact List.mem_filter.mpr ⟨hh, hk⟩
  unfold finishResponse respondWithGraphiQL sendResponse
  by_cases hc : (resp.statusCode == 200 && result.data.looseNull) = true <;>
    simp [hc] <;>
    split <;>
    first
    | exact h
    | exact hmem _ h _
    | (split <;> first | exact h | exact hmem _ h _)

/-- Every branch of `finishResponse` hands the same formatted envelope to the
response body: the result with its errors mapped through the formatting
function. -/
theorem bodyResult_finishResponse {ε φ υ : Type} (fmt : ErrVal ε → φ)
    (pretty showGraphiQL : Bool) (go : Option υ) (p : Option GraphQLParams)
    (resp : Response φ υ) (result : ResultEnvelope ε υ) :
    bodyResult (finishResponse fmt pretty showGraphiQL go p resp result).body =
      some { data := result.data,
             errors := result.errors.map (fun l => l.map fmt),
             extensions := result.extensions } := by
  unfold finishResponse respondWithGraphiQL sendResponse
  dsimp only
  split <;> (try split) <;> (try split) <;> rfl

/-- C9: in the HTTP variant, after the pipeline completes successfully
against a response whose status is still 200, the status code becomes 500
exactly when the result carries no data payload (null or undefined), and a
result that does carry data keeps status 200. -/
theorem status_500_when_no_data {σ δ ε ρ υ φ : Type} (X : Externals σ δ ε ρ υ φ)
    (options : OptionsData σ δ ε ρ υ φ) (request : Request υ)
    (response : Response φ υ) (params : GraphQLParams)
    (result : ExecutionResult ε υ)
    (h200 : response.statusCode = 200)
    (hp : HTTPServer.getGraphQLParams (ε := ε) X.jsonParse request = .ok params)
    (ho : (pipeline X options request params).outcome = PipeOutcome.ok result) :
    ((graphqlMiddleware X options request response).1).statusCode =
      if result.data.looseNull then 500 else 200 := by
  unfold graphqlMiddleware
  rw [hp]
  dsimp only
  rw [ho]
  dsimp only
  rw [finishResponse_statusCode]
  by_cases hd : result.data.looseNull = true <;>
    simp [hd, h200]

/-- Concrete GET request carrying a query in its URL. -/
def R9 : Request Nat :=
  { method := "GET",
    urlGet := fun k => if k = "query" then some "{x}" else none,
    body := emptyBody, acceptsHTMLOverJSON := false, asContext := 0 }

/-- Concrete oracles whose executor returns a result with a data payload. -/
def X9 : Externals Nat Nat Nat Nat Nat Nat :=
  { XNat with
    execute := fun _ => Except.ok
      { data := JSValue.obj [], errors := none, extensions := none } }

/-- C9 witness: a successful run whose result has a data payload keeps
status 200. -/
theorem status_500_when_no_data_witness :
    ((graphqlMiddleware X9 ONat R9 resp200).1).statusCode =
      if (JSValue.obj []).looseNull then 500 else 200 :=
  status_500_when_no_data X9 ONat R9 resp200
    { query := some "{x}", variableValues := JSValue.null, operationName := none,
      raw := JSValue.bool false }
    { data := JSValue.obj [], errors := none, extensions := none }
    (by rfl) (by rfl) (by rfl)

/-- C1 (the code contradicts the claim): the catch block sets
`response.statusCode = error.status ?? 500` (src/demo.js:555) but `httpError`
stores the code in `statusCode` and never sets `status`
(src/demo.js:196-198), so the failure's code never reaches the response.  At
a GET request with no query and the explorer off, the pipeline fails with
statusCode 400 yet the transport status code ends up 500. -/
theorem http_status_read_bug :
    (pipeline XNat ONat RNat
      { query := none, variableValues := JSValue.null, operationName := none,
        raw := JSValue.bool false }).outcome =
      PipeOutcome.failed (httpError 400 "Must provide query string." none none) ∧
    (httpError (ε := Nat) 400 "Must provide query string." none none).status
      = none ∧
    ((graphqlMiddleware XNat ONat RNat resp200).1).statusCode = 500 :=
  ⟨rfl, rfl, rfl⟩

/-- C6: on an HTTP GET request whose requested operation exists and is not a
query, the executor is never invoked; if the explorer is eligible it is
rendered (with the params, without executing), otherwise the pipeline fails
with a 405 `httpError` whose message names the offending operation kind and
whose `Allow: POST` header reaches the response. -/
theorem get_mutation_guard {σ δ ε ρ υ φ : Type} (X : Externals σ δ ε ρ υ φ)
    (options : OptionsData σ δ ε ρ υ φ) (request : Request υ)
    (response : Response φ υ) (params : GraphQLParams) (schema : σ)
    (query : String) (documentAST : δ) (op : OperationAST)
    (hp : HTTPServer.getGraphQLParams (ε := ε) X.jsonParse request = .ok params)
    (hm : request.method = "GET")
    (hs : options.schema = some schema)
    (hq : params.query = some query)
    (hvs : X.validateSchema schema = [])
    (hparse : (options.customParseFn.getD X.parse)
      { body := query, name := "GraphQL request" } = .ok documentAST)
    (hval : (options.customValidateFn.getD X.validate) schema documentAST
      (X.specifiedRules ++ options.validationRules.getD []) = [])
    (hop : X.getOperationAST documentAST params.operationName = some op)
    (hkind : op.operation ≠ "query") :
    Step.execute ∉ (graphqlMiddleware X options request response).2 ∧
    ((pipeline X options request params).showGraphiQL = true →
      (graphqlMiddleware X options request response).1 =
        respondWithGraphiQL response
          (pipeline X options request params).graphiqlOptions (some params) none) ∧
    ((pipeline X options request params).showGraphiQL = false →
      (pipeline X options request params).outcome =
        PipeOutcome.failed (httpError 405
          ("Can only perform a " ++ op.operation ++ " operation from a POST request.")
          none (some [("Allow", "POST")])) ∧
      ("Allow", "POST") ∈ ((graphqlMiddleware X options request response).1).headers) := by
  have hpipe : pipeline X options request params =
      (if (canDisplayGraphiQL request params &&
            graphiqlNotFalse options.graphiql) = true then
        { outcome := PipeOutcome.graphiqlEarly true,
          showGraphiQL := canDisplayGraphiQL request params &&
            graphiqlNotFalse options.graphiql,
          graphiqlOptions := graphiqlOptionsOf options.graphiql,
          trace := [Step.getParams, Step.resolveOptions, Step.schemaCheck,
            Step.methodCheck, Step.queryCheck, Step.validateSchemaStep,
            Step.parseStep, Step.validateDoc, Step.operationCheck] }
      else
        { outcome := PipeOutcome.failed (httpError 405
            ("Can only perform a " ++ op.operation ++
              " operation from a POST request.") none (some [("Allow", "POST")])),
          showGraphiQL := canDisplayGraphiQL request params &&
            graphiqlNotFalse options.graphiql,
          graphiqlOptions := graphiqlOptionsOf options.graphiql,
          trace := [Step.getParams, Step.resolveOptions, Step.schemaCheck,
            Step.methodCheck, Step.queryCheck, Step.validateSchemaStep,
            Step.parseStep, Step.validateDoc, Step.operationCheck] }) := by
    unfold pipeline
    rw [hs]
    try dsimp only
    rw [hm]
    rw [if_neg (by simp)]
    rw [hq]
    try dsimp only
    rw [hvs]
    rw [if_neg (by simp)]
    rw [hparse]
    try dsimp only
    rw [hval]
    rw [if_neg (by simp)]
    try dsimp only
    rw [if_pos (by simp)]
    rw [hop]
    try dsimp only
    rw [if_pos (by simpa using hkind)]
  refine ⟨?_, ?_, ?_⟩
  · unfold graphqlMiddleware
    rw [hp]
    try dsimp only
    rw [hpipe]
    by_cases hb : (canDisplayGraphiQL request params &&
        graphiqlNotFalse options.graphiql) = true <;>
      simp [hb]
  · intro hsg
    rw [hpipe] at hsg
    unfold graphqlMiddleware
    rw [hp]
    try dsimp only
    rw [hpipe]
    by_cases hb : (canDisplayGraphiQL request params &&
        graphiqlNotFalse options.graphiql) = true
    · simp [hb]
    · rw [if_neg hb] at hsg
      exact absurd hsg (by simpa using hb)
  · intro hsg
    rw [hpipe] at hsg
    by_cases hb : (canDisplayGraphiQL request params &&
        graphiqlNotFalse options.graphiql) = true
    · rw [if_pos hb] at hsg
      exact absurd hsg (by simp [hb])
    · constructor
      · rw [hpipe]
        rw [if_neg hb]
      · unfold graphqlMiddleware
        rw [hp]
        try dsimp only
        rw [hpipe]
        rw [if_neg hb]
        try dsimp only
        apply finishResponse_headers_mem
        · decide
        · unfold applyFailureToResponse
          dsimp only [httpError]
          refine List.mem_append.mpr (Or.inr ?_)
          simp

/-- Concrete oracles that resolve every document to a mutation operation. -/
def X6 : Externals Nat Nat Nat Nat Nat Nat :=
  { XNat with
    getOperationAST := fun _ _ => some { operation := "mutation" } }

/-- C6 witness: a GET request carrying a mutation, with the explorer not
eligible, fails 405 with `Allow: POST` and never invokes the executor. -/
theorem get_mutation_guard_witness :
    Step.execute ∉ (graphqlMiddleware X6 ONat R9 resp200).2 ∧
    (pipeline X6 ONat R9
      { query := some "{x}", variableValues := JSValue.null, operationName := none,
        raw := JSValue.bool false }).outcome =
      PipeOutcome.failed (httpError 405
        ("Can only perform a " ++ "mutation" ++ " operation from a POST request.")
        none (some [("Allow", "POST")])) ∧
    ("Allow", "POST") ∈ ((graphqlMiddleware X6 ONat R9 resp200).1).headers := by
  have h := get_mutation_guard X6 ONat R9 resp200
    { query := some "{x}", variableValues := JSValue.null, operationName := none,
      raw := JSValue.bool false } 0 "{x}" 0 { operation := "mutation" }
    (by rfl) rfl rfl rfl rfl (by rfl) rfl (by rfl) (by decide)
  exact ⟨h.1, (h.2.2 (by rfl)).1, (h.2.2 (by rfl)).2⟩

/-- Constant formatting function used to refute the cloud half of C7. -/
def fmtCex : ErrVal Nat → ErrVal Nat := fun _ => ErrVal.gqlErr 42

/-- Oracles at the counterexample's types (formatted errors are ErrVal Nat). -/
def XCex : Externals Nat Nat Nat Nat Nat (ErrVal Nat) :=
  { jsonParse := fun _ => none, validateSchema := fun _ => [],
    parse := fun _ => Except.ok 0, validate := fun _ _ _ => [],
    execute := fun _ => Except.ok
      { data := JSValue.null, errors := none, extensions := none },
    getOperationAST := fun _ _ => none, specifiedRules := [],
    formatError := fun e => e }

/-- Options supplying a `customFormatErrorFn` to the cloud handler. -/
def OCex : OptionsData Nat Nat Nat Nat Nat (ErrVal Nat) :=
  { wxParams := emptyWxParams, schema := some 0, context := none,
    rootValue := none, pretty := none, validationRules := none,
    customValidateFn := none, customExecuteFn := none,
    customFormatErrorFn := some fmtCex, customParseFn := none,
    formatError := none, extensions := none, fieldResolver := none,
    typeResolver := none, graphiql := GraphiqlRaw.undef }

/-- C7 counterexample: the cloud variant returns the raw failure object in
its errors list although a `customFormatErrorFn` was supplied; the entry is
not the formatter's image of that error, so not every error was mapped
through the formatting function in the cloud-function variant. -/
theorem cloud_errors_unformatted_cex :
    OCex.customFormatErrorFn = some fmtCex ∧
    (graphqlWXServer XCex OCex).errors =
      some [ErrVal.failure (httpError 400 "Must provide query string." none none)] ∧
    ErrVal.failure (httpError (ε := Nat) 400 "Must provide query string." none none) ≠
      fmtCex (ErrVal.failure (httpError 400 "Must provide query string." none none)) := by
  refine ⟨rfl, by rfl, ?_⟩
  intro h
  simp [fmtCex] at h

/-- C7 amended: in the HTTP variant, every envelope handed to the response
body has its errors mapped through the selected formatting function
(`customFormatErrorFn ?? formatError ?? formatError` of the engine); the
cloud-function variant selects the same chain but never applies it — its
output does not depend on the formatting options at all. -/
theorem http_formats_errors_cloud_does_not {σ δ ε ρ υ φ : Type}
    (X : Externals σ δ ε ρ υ φ) (options : OptionsData σ δ ε ρ υ φ)
    (request : Request υ) (response : Response φ υ) :
    (∀ env : FormattedEnvelope φ υ,
      bodyResult ((graphqlMiddleware X options request response).1).body = some env →
      ∃ raw : ResultEnvelope ε υ,
        env.data = raw.data ∧ env.extensions = raw.extensions ∧
        env.errors = raw.errors.map (fun l => l.map
          (options.customFormatErrorFn.getD
            (options.formatError.getD X.formatError)))) ∧
    (∀ f1 f2 g1 g2 : Option (ErrVal ε → φ),
      graphqlWXServer X
        { options with customFormatErrorFn := f1, formatError := g1 } =
      graphqlWXServer X
        { options with customFormatErrorFn := f2, formatError := g2 }) := by
  constructor
  · intro env henv
    unfold graphqlMiddleware at henv
    cases hp : HTTPServer.getGraphQLParams (ε := ε) X.jsonParse request with
    | error e =>
      rw [hp] at henv
      dsimp only at henv
      rw [bodyResult_finishResponse] at henv
      cases henv
      exact ⟨failureEnvelope e, rfl, rfl, rfl⟩
    | ok params =>
      rw [hp] at henv
      dsimp only at henv
      cases ho : (pipeline X options request params).outcome with
      | graphiqlEarly b =>
        rw [ho] at henv
        simp [respondWithGraphiQL, sendResponse, bodyResult] at henv
      | failed f =>
        rw [ho] at henv
        dsimp only at henv
        rw [bodyResult_finishResponse] at henv
        cases henv
        exact ⟨failureEnvelope f, rfl, rfl, rfl⟩
      | ok result =>
        rw [ho] at henv
        dsimp only at henv
        rw [bodyResult_finishResponse] at henv
        cases henv
        exact ⟨{ data := result.data,
                 errors := result.errors.map (fun l => l.map ErrVal.gqlErr),
                 extensions := result.extensions }, rfl, rfl, rfl⟩
  · intro f1 f2 g1 g2
    cases options
    rfl

/-- The full step order of the cloud pipeline. -/
def wxStepOrder : List Step :=
  [.getParams, .schemaCheck, .queryCheck, .validateSchemaStep, .parseStep,
   .validateDoc, .execute]

/-- The full step order of the HTTP pipeline. -/
def httpStepOrder : List Step :=
  [.getParams, .resolveOptions, .schemaCheck, .methodCheck, .queryCheck,
   .validateSchemaStep, .parseStep, .validateDoc, .operationCheck, .execute,
   .extensionsStep]

/-- The claim's precondition list for invoking the executor in the
cloud-function variant: extraction succeeded, a schema was supplied, the
extracted query is non-null, schema validation returned no errors, parsing
succeeded, and document validation returned no errors. -/
def wxExecConditions {σ δ ε ρ υ φ : Type} (X : Externals σ δ ε ρ υ φ)
    (options : OptionsData σ δ ε ρ υ φ) : Prop :=
  match WXServer.getGraphQLParams (ε := ε) X.jsonParse options.wxParams with
  | .error _ => False
  | .ok params =>
    match options.schema with
    | none => False
    | some schema =>
      match params.query with
      | none => False
      | some query =>
        X.validateSchema schema = [] ∧
        match (options.customParseFn.getD X.parse)
            { body := query, name := "GraphQL request" } with
        | .error _ => False
        | .ok documentAST =>
          (options.customValidateFn.getD X.validate) schema documentAST
            (X.specifiedRules ++ options.validationRules.getD []) = []

/-- The claim's precondition list for invoking the executor in the HTTP
variant: additionally the method is GET or POST, and on a GET request the
requested operation, when determined, is a query. -/
def httpExecConditions {σ δ ε ρ υ φ : Type} (X : Externals σ δ ε ρ υ φ)
    (options : OptionsData σ δ ε ρ υ φ) (request : Request υ) : Prop :=
  match HTTPServer.getGraphQLParams (ε := ε) (υ := υ) X.jsonParse request with
  | .error _ => False
  | .ok params =>
    match options.schema with
    | none => False
    | some schema =>
      (request.method = "GET" ∨ request.method = "POST") ∧
      match params.query with
      | none => False
      | some query =>
        X.validateSchema schema = [] ∧
        match (options.customParseFn.getD X.parse)
            { body := query, name := "GraphQL request" } with
        | .error _ => False
        | .ok documentAST =>
          (options.customValidateFn.getD X.validate) schema documentAST
            (X.specifiedRules ++ options.validationRules.getD []) = [] ∧
          (request.method = "GET" →
            ∀ op : OperationAST,
              X.getOperationAST documentAST params.operationName = some op →
                op.operation = "query")

/-- The cloud pipeline invokes the executor exactly when every earlier check
passed. -/
theorem wx_execute_iff {σ δ ε ρ υ φ : Type} (X : Externals σ δ ε ρ υ φ)
    (options : OptionsData σ δ ε ρ υ φ) :
    Step.execute ∈ (graphqlWXServerCore X options).2 ↔
      wxExecConditions X options := by
  unfold graphqlWXServerCore wxExecConditions
  cases hE : WXServer.getGraphQLParams (ε := ε) X.jsonParse options.wxParams with
  | error e => exact iff_of_false (by simp) not_false
  | ok params =>
    try dsimp only
    cases hS : options.schema with
    | none => exact iff_of_false (by simp) not_false
    | some schema =>
      try dsimp only
      cases hQ : params.query with
      | none => exact iff_of_false (by simp) not_false
      | some query =>
        try dsimp only
        by_cases hV : 0 < (X.validateSchema schema).length
        · rw [if_pos hV]
          exact iff_of_false (by simp) (fun hc => List.length_pos.mp hV hc.1)
        · rw [if_neg hV]
          have hvnil : X.validateSchema schema = [] :=
            List.length_eq_zero.mp (Nat.eq_zero_of_not_pos hV)
          cases hP : (options.customParseFn.getD X.parse)
              { body := query, name := "GraphQL request" } with
          | error syntaxError =>
            try dsimp only
            exact iff_of_false (by simp) (fun hc => hc.2)
          | ok documentAST =>
            try dsimp only
            by_cases hW : 0 < ((options.customValidateFn.getD X.validate) schema
                documentAST (X.specifiedRules ++ options.validationRules.getD [])).length
            · rw [if_pos hW]
              exact iff_of_false (by simp) (fun hc => List.length_pos.mp hW hc.2)
            · rw [if_neg hW]
              have hwnil := List.length_eq_zero.mp (Nat.eq_zero_of_not_pos hW)
              cases hX2 : (options.customExecuteFn.getD X.execute)
                  { schema := schema, document := documentAST,
                    rootValue := options.rootValue, contextValue := options.context,
                    variableValues := params.variableValues,
                    operationName := params.operationName,
                    fieldResolver := options.fieldResolver,
                    typeResolver := options.typeResolver } with
              | error contextError =>
                exact iff_of_true (by simp) ⟨hvnil, hwnil⟩
              | ok result =>
                exact iff_of_true (by simp) ⟨hvnil, hwnil⟩

/-- The cloud pipeline's trace is always an initial segment of the full step
order: the steps run in order and stop at the first failure. -/
theorem wx_trace_take {σ δ ε ρ υ φ : Type} (X : Externals σ δ ε ρ υ φ)
    (options : OptionsData σ δ ε ρ υ φ) :
    (graphqlWXServerCore X options).2 =
      wxStepOrder.take (graphqlWXServerCore X options).2.length := by
  unfold graphqlWXServerCore
  cases hE : WXServer.getGraphQLParams (ε := ε) X.jsonParse options.wxParams with
  | error e => rfl
  | ok params =>
    try dsimp only
    cases hS : options.schema with
    | none => rfl
    | some schema =>
      try dsimp only
      cases hQ : params.query with
      | none => rfl
      | some query =>
        try dsimp only
        by_cases hV : 0 < (X.validateSchema schema).length
        · rw [if_pos hV]
          rfl
        · rw [if_neg hV]
          cases hP : (options.customParseFn.getD X.parse)
              { body := query, name := "GraphQL request" } with
          | error syntaxError =>
            try dsimp only
            rfl
          | ok documentAST =>
            try dsimp only
            by_cases hW : 0 < ((options.customValidateFn.getD X.validate) schema
                documentAST (X.specifiedRules ++ options.validationRules.getD [])).length
            · rw [if_pos hW]
              rfl
            · rw [if_neg hW]
              cases hX2 : (options.customExecuteFn.getD X.execute)
                  { schema := schema, document := documentAST,
                    rootValue := options.rootValue, contextValue := options.context,
                    variableValues := params.variableValues,
                    operationName := params.operationName,
                    fieldResolver := options.fieldResolver,
                    typeResolver := options.typeResolver } with
              | error contextError => rfl
              | ok result => rfl

/-- Once parameters were extracted, the middleware's trace is the pipeline's
trace, whichever outcome occurred. -/
theorem graphqlMiddleware_trace {σ δ ε ρ υ φ : Type} (X : Externals σ δ ε ρ υ φ)
    (options : OptionsData σ δ ε ρ υ φ) (request : Request υ)
    (response : Response φ υ) (params : GraphQLParams)
    (hp : HTTPServer.getGraphQLParams (ε := ε) X.jsonParse request = .ok params) :
    (graphqlMiddleware X options request response).2 =
      (pipeline X options request params).trace := by
  unfold graphqlMiddleware
  rw [hp]
  try dsimp only
  cases ho : (pipeline X options request params).outcome <;> rfl

/-- The HTTP pipeline invokes the executor exactly when every earlier check
passed (and, on GET, the requested operation, when determined, is a query). -/
theorem http_execute_iff {σ δ ε ρ υ φ : Type} (X : Externals σ δ ε ρ υ φ)
    (options : OptionsData σ δ ε ρ υ φ) (request : Request υ)
    (response : Response φ υ) :
    Step.execute ∈ (graphqlMiddleware X options request response).2 ↔
      httpExecConditions X options request := by
  unfold httpExecConditions
  cases hp : HTTPServer.getGraphQLParams (ε := ε) (υ := υ) X.jsonParse request with
  | error e =>
    have ht : (graphqlMiddleware X options request response).2 =
        [Step.getParams, Step.resolveOptions] := by
      unfold graphqlMiddleware
      rw [hp]
    rw [ht]
    exact iff_of_false (by simp) not_false
  | ok params =>
    rw [graphqlMiddleware_trace X options request response params hp]
    try dsimp only
    unfold pipeline
    cases hS : options.schema with
    | none => exact iff_of_false (by simp) not_false
    | some schema =>
      try dsimp only
      by_cases hM : (request.method != "GET" && request.method != "POST") = true
      · rw [if_pos hM]
        refine iff_of_false (by simp) (fun hc => ?_)
        rcases hc.1 with h | h <;> simp [h] at hM
      · rw [if_neg hM]
        have hMor : request.method = "GET" ∨ request.method = "POST" := by
          by_cases h1 : request.method = "GET"
          · exact Or.inl h1
          · refine Or.inr ?_
            by_cases h2 : request.method = "POST"
            · exact h2
            · exact absurd (by simp [h1, h2]) hM
        cases hQ : params.query with
        | none =>
          try dsimp only
          by_cases hG : (canDisplayGraphiQL request params &&
              graphiqlNotFalse options.graphiql) = true
          · rw [if_pos hG]
            exact iff_of_false (by simp) (fun hc => hc.2)
          · rw [if_neg hG]
            exact iff_of_false (by simp) (fun hc => hc.2)
        | some query =>
          try dsimp only
          by_cases hV : 0 < (X.validateSchema schema).length
          · rw [if_pos hV]
            exact iff_of_false (by simp) (fun hc => List.length_pos.mp hV hc.2.1)
          · rw [if_neg hV]
            have hvnil : X.validateSchema schema = [] :=
              List.length_eq_zero.mp (Nat.eq_zero_of_not_pos hV)
            cases hP : (options.customParseFn.getD X.parse)
                { body := query, name := "GraphQL request" } with
            | error syntaxError =>
              try dsimp only
              exact iff_of_false (by simp) (fun hc => hc.2.2)
            | ok documentAST =>
              try dsimp only
              by_cases hW : 0 < ((options.customValidateFn.getD X.validate) schema
                  documentAST (X.specifiedRules ++ options.validationRules.getD [])).length
              · rw [if_pos hW]
                exact iff_of_false (by simp) (fun hc => List.length_pos.mp hW hc.2.2.1)
              · rw [if_neg hW]
                have hwnil := List.length_eq_zero.mp (Nat.eq_zero_of_not_pos hW)
                try dsimp only
                by_cases hGet : (request.method == "GET") = true
                · rw [if_pos hGet]
                  have hMeq : request.method = "GET" := by simpa using hGet
                  cases hOp : X.getOperationAST documentAST params.operationName with
                  | some operationAST =>
                    try dsimp only
                    by_cases hK : (operationAST.operation != "query") = true
                    · rw [if_pos hK]
                      have hkind : operationAST.operation ≠ "query" := by
                        simpa using hK
                      have hcf : ¬(request.method = "GET" →
                          ∀ op : OperationAST,
                            some operationAST = some op →
                              op.operation = "query") := by
                        intro hcc
                        exact hkind (hcc hMeq operationAST rfl)
                      by_cases hG : (canDisplayGraphiQL request params &&
                          graphiqlNotFalse options.graphiql) = true
                      · rw [if_pos hG]
                        exact iff_of_false (by simp) (fun hc => hcf hc.2.2.2)
                      · rw [if_neg hG]
                        exact iff_of_false (by simp) (fun hc => hcf hc.2.2.2)
                    · rw [if_neg hK]
                      have hkq : operationAST.operation = "query" := by
                        simpa using hK
                      have hctrue : request.method = "GET" →
                          ∀ op : OperationAST,
                            some operationAST = some op →
                              op.operation = "query" := by
                        intro hmeq op hop
                        cases hop
                        exact hkq
                      cases hX2 : (options.customExecuteFn.getD X.execute)
                          { schema := schema, document := documentAST,
                            rootValue := options.rootValue,
                            contextValue := some (match options.context with
                              | some c => c
                              | none => request.asContext),
                            variableValues := params.variableValues,
                            operationName := params.operationName,
                            fieldResolver := options.fieldResolver,
                            typeResolver := options.typeResolver } with
                      | error contextError =>
                        exact iff_of_true (by simp) ⟨hMor, hvnil, hwnil, hctrue⟩
                      | ok result =>
                        cases hExt : options.extensions with
                        | none =>
                          exact iff_of_true (by simp) ⟨hMor, hvnil, hwnil, hctrue⟩
                        | some extensionsFn =>
                          exact iff_of_true (by simp) ⟨hMor, hvnil, hwnil, hctrue⟩
                  | none =>
                    try dsimp only
                    have hctrue : request.method = "GET" →
                        ∀ op : OperationAST,
                          (none : Option OperationAST) = some op →
                            op.operation = "query" := by
                      intro hmeq op hop
                      exact Option.noConfusion hop
                    cases hX2 : (options.customExecuteFn.getD X.execute)
                        { schema := schema, document := documentAST,
                          rootValue := options.rootValue,
                          contextValue := some (match options.context with
                            | some c => c
                            | none => request.asContext),
                          variableValues := params.variableValues,
                          operationName := params.operationName,
                          fieldResolver := options.fieldResolver,
                          typeResolver := options.typeResolver } with
                    | error contextError =>
                      exact iff_of_true (by simp) ⟨hMor, hvnil, hwnil, hctrue⟩
                    | ok result =>
                      cases hExt : options.extensions with
                      | none =>
                        exact iff_of_true (by simp) ⟨hMor, hvnil, hwnil, hctrue⟩
                      | some extensionsFn =>
                        exact iff_of_true (by simp) ⟨hMor, hvnil, hwnil, hctrue⟩
                · rw [if_neg hGet]
                  have hctrue : request.method = "GET" →
                      ∀ op : OperationAST,
                        X.getOperationAST documentAST params.operationName
                          = some op → op.operation = "query" :=
                    fun hmeq => absurd hmeq (by simpa using hGet)
                  cases hX2 : (options.customExecuteFn.getD X.execute)
                      { schema := schema, document := documentAST,
                        rootValue := options.rootValue,
                        contextValue := some (match options.context with
                          | some c => c
                          | none => request.asContext),
                        variableValues := params.variableValues,
                        operationName := params.operationName,
                        fieldResolver := options.fieldResolver,
                        typeResolver := options.typeResolver } with
                  | error contextError =>
                    exact iff_of_true (by simp) ⟨hMor, hvnil, hwnil, hctrue⟩
                  | ok result =>
                    cases hExt : options.extensions with
                    | none =>
                      exact iff_of_true (by simp) ⟨hMor, hvnil, hwnil, hctrue⟩
                    | some extensionsFn =>
                      exact iff_of_true (by simp) ⟨hMor, hvnil, hwnil, hctrue⟩

/-- The HTTP middleware's trace is a subchain of the full step order: steps
run in source order, each at most once, skipping only steps the control flow
skips. -/
theorem graphqlMiddleware_trace_sublist {σ δ ε ρ υ φ : Type}
    (X : Externals σ δ ε ρ υ φ) (options : OptionsData σ δ ε ρ υ φ)
    (request : Request υ) (response : Response φ υ) :
    List.Sublist (graphqlMiddleware X options request response).2 httpStepOrder := by
  cases hp : HTTPServer.getGraphQLParams (ε := ε) (υ := υ) X.jsonParse request with
  | error e =>
    have ht : (graphqlMiddleware X options request response).2 =
        [Step.getParams, Step.resolveOptions] := by
      unfold graphqlMiddleware
      rw [hp]
    rw [ht]
    decide
  | ok params =>
    rw [graphqlMiddleware_trace X options request response params hp]
    unfold pipeline
    try dsimp only
    repeat' split
    all_goals first
    | decide
    | (dsimp only; decide)

/-- C3: both pipelines are strictly sequential and short-circuit on first
failure.  The executor step is in the cloud trace exactly when extraction
succeeded, a schema was supplied, the query is non-null, schema validation
returned no errors, parsing succeeded and document validation returned no
errors; the HTTP trace additionally requires the method check and, on GET,
that the requested operation (when determined) is a query.  The cloud trace
is always an initial segment of its step order and the HTTP trace a subchain
of its step order: once a step fails, no later step runs. -/
theorem pipelines_sequential_shortcircuit {σ δ ε ρ υ φ : Type}
    (X : Externals σ δ ε ρ υ φ) (options : OptionsData σ δ ε ρ υ φ)
    (request : Request υ) (response : Response φ υ) :
    (Step.execute ∈ (graphqlWXServerCore X options).2 ↔
      wxExecConditions X options) ∧
    ((graphqlWXServerCore X options).2 =
      wxStepOrder.take (graphqlWXServerCore X options).2.length) ∧
    (Step.execute ∈ (graphqlMiddleware X options request response).2 ↔
      httpExecConditions X options request) ∧
    List.Sublist (graphqlMiddleware X options request response).2 httpStepOrder :=
  ⟨wx_execute_iff X options, wx_trace_take X options,
   http_execute_iff X options request response,
   graphqlMiddleware_trace_sublist X options request response⟩

/-- C7 witness: the concrete failing run's JSON body is a raw envelope with
its errors mapped through the selected formatting chain (here the engine
default, constant 0). -/
theorem http_formats_errors_cloud_does_not_witness :
    ∃ raw : ResultEnvelope Nat Nat,
      (JSValue.undefined : JSValue) = raw.data ∧
      (none : Option Nat) = raw.extensions ∧
      (some [0] : Option (List Nat)) = raw.errors.map (fun l => l.map
        (ONat.customFormatErrorFn.getD
          (ONat.formatError.getD XNat.formatError))) :=
  (http_formats_errors_cloud_does_not XNat ONat RNat resp200).1
    { data := JSValue.undefined, errors := some [0], extensions := none }
    (by rfl)
